import Mathlib

/-!
Shallow embedding of the spread-arbitrage bot in src/bot.py.

Prices, notionals and quantities are modelled as rationals; Python
float arithmetic on these inputs is exact rational arithmetic at the
granularity the claims are about.  Python `None` becomes `Option`,
`math.floor`-based rounding becomes `Int.floor`, and dictionary /
thread state becomes explicit state records passed through step
functions.  Each definition carries the name of the source function it
embeds.
-/

namespace Bot

/-- Embeds `round_down(value, precision)` (bot.py lines 198-201):
`math.floor(value*10**precision)/10**precision`, identity when the
precision is `None`. -/
def round_down (value : ℚ) : Option ℤ → ℚ
  | none => value
  | some p => (⌊value * (10 : ℚ) ^ p⌋ : ℚ) / (10 : ℚ) ^ p

/-- Result pair of `compute_amount_for_notional`: the order amount and the
implied notional. -/
structure AmountResult where
  amt : ℚ
  implied : ℚ
  deriving DecidableEq, Repr

/-- Embeds `compute_amount_for_notional(exchange, symbol, desired_usdt, price)`
(bot.py lines 203-222).  The market lookup is replaced by explicit
`contract_size` / `amount_precision` arguments; `exchange.id == 'binance'`
becomes the `isBinance` flag.  Non-positive price returns zeros as in the
source. -/
def compute_amount_for_notional (isBinance : Bool) (contract_size : ℚ)
    (amount_precision : Option ℤ) (desired_usdt price : ℚ) : AmountResult :=
  if price ≤ 0 then ⟨0, 0⟩
  else if isBinance then
    let base := desired_usdt / price
    let amt := round_down base amount_precision
    ⟨amt, amt * contract_size * price⟩
  else
    let base := desired_usdt / price
    let contracts := if contract_size ≠ 0 then base / contract_size else base
    let contracts' := round_down contracts amount_precision
    ⟨contracts', contracts' * contract_size * price⟩

/-- Embeds the reference-price computation of
`match_base_exposure_per_exchange` (bot.py lines 699-704): the mid of the
two prices, falling back to the first truthy (nonzero) price or `1.0`
when the mid is non-positive. -/
def ref_price_of (bin_price kc_price : ℚ) : ℚ :=
  let r := (bin_price + kc_price) / 2
  if r ≤ 0 then (if bin_price ≠ 0 then bin_price else if kc_price ≠ 0 then kc_price else 1)
  else r

/-- Result record of `match_base_exposure_per_exchange`. -/
structure MatchResult where
  notional_bin : ℚ
  notional_kc : ℚ
  bin_base_amount : ℚ
  kc_contracts : ℚ
  deriving DecidableEq, Repr

/-- Embeds `match_base_exposure_per_exchange` (bot.py lines 678-728).
Market lookups are replaced by explicit precision and contract-size
arguments.  The source floors a common target base amount to each
venue, then bumps a side that floored to non-positive up to one
price-step (the `bin_base_amount <= 0` / `kc_contracts <= 0` fallbacks). -/
def match_base_exposure_per_exchange (bin_prec kc_prec : Option ℤ)
    (bin_contract_size kc_contract_size desired_usdt bin_price kc_price : ℚ) :
    MatchResult :=
  let ref_price := ref_price_of bin_price kc_price
  let target_base := desired_usdt / ref_price
  let bin_base_amount := round_down target_base bin_prec
  let kc_contracts :=
    if 0 < kc_contract_size then round_down (target_base / kc_contract_size) kc_prec
    else round_down target_base kc_prec
  let notional_bin := bin_base_amount * bin_price
  let notional_kc := kc_contracts * kc_contract_size * kc_price
  let binPair : ℚ × ℚ :=
    if bin_base_amount ≤ 0 then
      let step_bin :=
        if bin_contract_size ≠ 0 ∧ bin_price ≠ 0 then bin_contract_size * bin_price
        else desired_usdt * (1 / 1000)
      let b := round_down (step_bin / bin_price) bin_prec
      (b, b * bin_price)
    else (bin_base_amount, notional_bin)
  let kcPair : ℚ × ℚ :=
    if kc_contracts ≤ 0 then
      let step_kc :=
        if kc_contract_size ≠ 0 ∧ kc_price ≠ 0 then kc_contract_size * kc_price
        else desired_usdt * (1 / 1000)
      let c :=
        round_down (if kc_contract_size ≠ 0 then step_kc / kc_contract_size else step_kc) kc_prec
      (c, c * kc_contract_size * kc_price)
    else (kc_contracts, notional_kc)
  ⟨binPair.2, kcPair.2, binPair.1, kcPair.1⟩

/-- Embeds `calculate_spread(bin_bid, bin_ask, ku_bid, ku_ask)` (bot.py
lines 1030-1043).  Python `not all([...])` rejects any zero (falsy)
price; only the Binance prices are additionally screened for being
non-positive.  Returns the positive-direction spread when it exceeds
0.01, else the negative-direction spread when below -0.01, else `none`. -/
def calculate_spread (bin_bid bin_ask ku_bid ku_ask : ℚ) : Option ℚ :=
  if bin_bid = 0 ∨ bin_ask = 0 ∨ ku_bid = 0 ∨ ku_ask = 0 ∨ bin_ask ≤ 0 ∨ bin_bid ≤ 0 then
    none
  else
    let posSpread := (ku_bid - bin_ask) / bin_ask * 100
    let negSpread := (ku_ask - bin_bid) / bin_bid * 100
    if posSpread > 1 / 100 then some posSpread
    else if negSpread < -(1 / 100) then some negSpread
    else none

/-- `ENTRY_SPREAD` default from bot.py line 46 (`"1.5"`). -/
def ENTRY_SPREAD : ℚ := 3 / 2

/-- `PROFIT_TARGET` default from bot.py line 47 (`"0.05"`). -/
def PROFIT_TARGET : ℚ := 1 / 20

/-- `MAX_NOTIONAL_MISMATCH_PCT` default from bot.py line 55 (`"0.5"`). -/
def MAX_NOTIONAL_MISMATCH_PCT : ℚ := 1 / 2

/-- `REBALANCE_MIN_DOLLARS` default from bot.py line 56 (`"0.5"`). -/
def REBALANCE_MIN_DOLLARS : ℚ := 1 / 2

/-- `NOTIONAL` default from bot.py line 44 (`"10.0"`). -/
def NOTIONAL : ℚ := 10

/-- `WATCHER_DETECT_CONFIRM` default from bot.py line 52 (`"2"`). -/
def WATCHER_DETECT_CONFIRM : ℕ := 2

/-- `ZERO_ABS_THRESHOLD = 1e-8` from bot.py line 805. -/
def ZERO_ABS_THRESHOLD : ℚ := 1 / 100000000

/-- The two trade directions recorded in the `positions` dictionary
(`'caseA'` / `'caseB'`, bot.py line 181). -/
inductive Case
  | caseA
  | caseB
  deriving DecidableEq, Repr

/-- A top-of-book snapshot for one venue. -/
structure Tick where
  bid : ℚ
  ask : ℚ
  deriving DecidableEq, Repr

/-- The global flags the scanner evaluation reads: `closing_in_progress`,
the result of this cycle's `has_open_positions()` venue query, and
`terminate_bot` (bot.py lines 194-195).  `terminate_bot` is carried so
that theorems can state whether the scanner consults it. -/
structure ScanEnv where
  closing_in_progress : Bool
  has_open : Bool
  terminate_bot : Bool
  deriving DecidableEq, Repr

/-- The entry guard of bot.py lines 1516 and 1562: the candidate symbol
has no recorded position, the trigger spread meets the entry threshold,
no close is in progress, and the venue open-position check came back
clear. -/
def entry_guard (env : ScanEnv) (posMap : ℕ → Option Case) (sym : ℕ) (ts : ℚ) : Prop :=
  posMap sym = none ∧ ENTRY_SPREAD ≤ ts ∧
    env.closing_in_progress = false ∧ env.has_open = false

instance (env : ScanEnv) (posMap : ℕ → Option Case) (sym : ℕ) (ts : ℚ) :
    Decidable (entry_guard env posMap sym ts) := by
  unfold entry_guard; infer_instance

/-- Embeds one per-candidate evaluation of `scanner_main_loop`
(bot.py lines 1484-1596): the reset block (1497-1509) followed by the
Case A / Case B entry-confirmation blocks.  Inputs: the shared flags,
the `positions` dictionary as a map, the candidate symbol, whether
`resolve_kucoin_trade_symbol` succeeds, the current
`entry_confirm_count[sym]`, and the freshly fetched Binance / KuCoin
ticks (`none` means the price fetch failed this round, line 1490, which
leaves the counter untouched).  Returns the new counter value and
`some c` when the trade entry (`execute_caseA`/`execute_caseB`) is
dispatched.  After a dispatch the counter is 0 on every path of the
execute functions (lines 1087, 1149, 1158, 1162, 1172, 1180 and the
Case B analogues).  Note that `env.terminate_bot` is never read, exactly
as in the source loop. -/
def scanner_eval (env : ScanEnv) (posMap : ℕ → Option Case) (sym : ℕ)
    (resolveOk : Bool) (count : ℕ) :
    Option Tick → Option Tick → ℕ × Option Case
  | some bt, some kt =>
    if bt.ask < kt.bid then
      let ts := 100 * (kt.bid - bt.ask) / bt.ask
      let c1 := if ts < ENTRY_SPREAD then 0 else count
      if entry_guard env posMap sym ts then
        if 3 ≤ c1 + 1 then
          if resolveOk then (0, some Case.caseA) else (0, none)
        else (c1 + 1, none)
      else (0, none)
    else if kt.ask < bt.bid then
      let ts := 100 * (bt.bid - kt.ask) / kt.ask
      let c1 := if ts < ENTRY_SPREAD then 0 else count
      if entry_guard env posMap sym ts then
        if 3 ≤ c1 + 1 then
          if resolveOk then (0, some Case.caseB) else (0, none)
        else (c1 + 1, none)
      else (0, none)
    else (0, none)
  | _, _ => (count, none)

/-- Realized entry spread for Case A (bot.py line 1079):
`100 * (exec_price_kc - exec_price_bin) / exec_price_bin`. -/
def real_entry_spread_caseA (exec_price_kc exec_price_bin : ℚ) : ℚ :=
  100 * (exec_price_kc - exec_price_bin) / exec_price_bin

/-- Trigger spread for Case A (bot.py lines 1080-1081):
`100 * (kc_bid - bin_ask) / bin_ask`. -/
def trigger_spread_caseA (kc_bid bin_ask : ℚ) : ℚ :=
  100 * (kc_bid - bin_ask) / bin_ask

/-- Literal transcription of bot.py line 1080:
`final_entry_spread = real_entry_spread if real_entry_spread >= trigger
else real_entry_spread` — both branches of the source conditional are
the realized spread. -/
def final_entry_spread_caseA (exec_price_kc exec_price_bin kc_bid bin_ask : ℚ) : ℚ :=
  let real := real_entry_spread_caseA exec_price_kc exec_price_bin
  if trigger_spread_caseA kc_bid bin_ask ≤ real then real else real

/-- Realized entry spread for Case B (bot.py line 1214). -/
def real_entry_spread_caseB (exec_price_bin exec_price_kc : ℚ) : ℚ :=
  100 * (exec_price_bin - exec_price_kc) / exec_price_kc

/-- Trigger spread for Case B (bot.py lines 1215-1216). -/
def trigger_spread_caseB (bin_bid kc_ask : ℚ) : ℚ :=
  100 * (bin_bid - kc_ask) / kc_ask

/-- Literal transcription of bot.py line 1215 (same both-branch shape as
Case A). -/
def final_entry_spread_caseB (exec_price_bin exec_price_kc bin_bid kc_ask : ℚ) : ℚ :=
  let real := real_entry_spread_caseB exec_price_bin exec_price_kc
  if trigger_spread_caseB bin_bid kc_ask ≤ real then real else real

/-- Modelled from the spec (section 4.4 and the log line at bot.py 1081,
which claims the trigger spread is used as profit basis when the
realized spread is at least the trigger spread): the conservative entry
basis the claim describes for Case A. -/
def claimed_entry_basis_caseA (exec_price_kc exec_price_bin kc_bid bin_ask : ℚ) : ℚ :=
  let real := real_entry_spread_caseA exec_price_kc exec_price_bin
  if trigger_spread_caseA kc_bid bin_ask ≤ real then trigger_spread_caseA kc_bid bin_ask
  else real

/-- The current exit spread of `exit_monitor_loop` (bot.py lines 1345
and 1349), relative to the recorded entry price of the relevant leg. -/
def exit_spread_of : Case → Tick → Tick → ℚ → ℚ → ℚ
  | Case.caseA, bt, kt, entry_price_bin, _ => 100 * (kt.ask - bt.bid) / entry_price_bin
  | Case.caseB, bt, kt, _, entry_price_kc => 100 * (bt.bid - kt.ask) / entry_price_kc

/-- The exit condition of bot.py line 1356: captured profit at target,
or the exit spread within the near-zero epsilon `0.02`. -/
def exit_condition (entry_basis s : ℚ) : Prop :=
  PROFIT_TARGET ≤ entry_basis - s ∨ |s| < 1 / 50

instance (entry_basis s : ℚ) : Decidable (exit_condition entry_basis s) := by
  unfold exit_condition; infer_instance

/-- Embeds one per-symbol evaluation of `exit_monitor_loop` (bot.py
lines 1332-1386).  Inputs: the fetched ticks (`none` when a fetch failed
this cycle, which `continue`s leaving the counter untouched), the
recorded position case (`none` skips), the recorded entry basis spread
and entry prices, and the current `exit_confirm_count[sym]`.  Returns
the new counter and whether the exit (close-all) fired. -/
def exit_step (binTick kcTick : Option Tick) (cse : Option Case)
    (entry_basis entry_price_bin entry_price_kc : ℚ) (count : ℕ) : ℕ × Bool :=
  match cse with
  | none => (count, false)
  | some c =>
    match binTick, kcTick with
    | some bt, some kt =>
      if exit_condition entry_basis
          (exit_spread_of c bt kt entry_price_bin entry_price_kc) then
        if 3 ≤ count + 1 then (0, true) else (count + 1, false)
      else (0, false)
    | _, _ => (count, false)

/-- Per-leg state of the liquidation watcher (bot.py lines 791-794):
the `seen_nonzero_*` flag and the `zero_cnt_*` counter. -/
structure LegState where
  seen_nonzero : Bool
  zero_cnt : ℕ
  deriving DecidableEq, Repr

/-- Embeds the per-leg counter update of the watcher loop (bot.py lines
828-840): a reading above `ZERO_ABS_THRESHOLD` in absolute value marks
the leg as seen-nonzero and resets the counter; otherwise the counter
increments only if the leg was already seen nonzero. -/
def leg_update (s : LegState) (q : ℚ) : LegState :=
  if ZERO_ABS_THRESHOLD < |q| then ⟨true, 0⟩
  else if s.seen_nonzero then ⟨s.seen_nonzero, s.zero_cnt + 1⟩
  else s

/-- Both legs of the watcher state. -/
structure WatcherState where
  bin : LegState
  kc : LegState
  deriving DecidableEq, Repr

/-- What one watcher poll did. -/
inductive WatchEvent
  | quiet
  | skip
  | reset
  | triggerBin
  | triggerKc
  deriving DecidableEq, Repr

/-- Embeds the initial fetch of the watcher thread (bot.py lines
796-803): a failed fetch counts as 0.0, and `seen_nonzero` starts true
only if the initial reading is nonzero beyond the threshold. -/
def watcher_init (fb fk : Option ℚ) : WatcherState :=
  let pb := fb.getD 0
  let pk := fk.getD 0
  ⟨⟨decide (ZERO_ABS_THRESHOLD < |pb|), 0⟩, ⟨decide (ZERO_ABS_THRESHOLD < |pk|), 0⟩⟩

/-- Embeds one iteration of the watcher loop body (bot.py lines
807-871).  `closingOrGone` is `closing_in_progress or positions.get(sym)
is None` (line 809), which zeroes both counters; a `none` fetch on
either venue skips the cycle without touching any counter (lines
820-823); otherwise both legs update and the Binance leg is checked for
sustained zero before the KuCoin leg (lines 844, 857). -/
def watcher_step (closingOrGone : Bool) (s : WatcherState) (fb fk : Option ℚ) :
    WatcherState × WatchEvent :=
  if closingOrGone then
    (⟨⟨s.bin.seen_nonzero, 0⟩, ⟨s.kc.seen_nonzero, 0⟩⟩, WatchEvent.reset)
  else
    match fb, fk with
    | some qb, some qk =>
      let b := leg_update s.bin qb
      let k := leg_update s.kc qk
      if WATCHER_DETECT_CONFIRM ≤ b.zero_cnt then (⟨b, k⟩, WatchEvent.triggerBin)
      else if WATCHER_DETECT_CONFIRM ≤ k.zero_cnt then (⟨b, k⟩, WatchEvent.triggerKc)
      else (⟨b, k⟩, WatchEvent.quiet)
    | _, _ => (s, WatchEvent.skip)

/-- Runs the watcher over a list of polls; each poll carries the
`closingOrGone` flag and the two fetch results.  Returns the final state
and the event of every poll in order. -/
def watcher_run (s : WatcherState) :
    List (Bool × Option ℚ × Option ℚ) → WatcherState × List WatchEvent
  | [] => (s, [])
  | p :: ps =>
    let r := watcher_step p.1 s p.2.1 p.2.2
    let rest := watcher_run r.1 ps
    (rest.1, r.2 :: rest.2)

/-- The two venues. -/
inductive Venue
  | binance
  | kucoin
  deriving DecidableEq, Repr

/-- Side effects the liquidation handler runs, in order. -/
inductive BotAction
  | targetedClose (v : Venue)
  | flattenAll
  deriving DecidableEq, Repr

/-- Embeds the sustained-zero handler of the watcher (bot.py lines
844-867): for the venue whose leg went to zero, submit a targeted
reduce-only close on the surviving venue
(`close_single_exchange_position`), then run `close_all_and_wait()`,
then set `terminate_bot = True`.  Returns the ordered action list and
the new `terminate_bot` value. -/
def on_sustained_zero : Venue → List BotAction × Bool
  | Venue.binance => ([BotAction.targetedClose Venue.kucoin, BotAction.flattenAll], true)
  | Venue.kucoin => ([BotAction.targetedClose Venue.binance, BotAction.flattenAll], true)

/-- Result of one ccxt position fetch inside `has_open_positions`:
either the call raised, or it returned a (possibly empty) list whose
entries are reduced to the raw quantity the source extracts
(`positionAmt` / `contracts` / `currentQty` fallbacks). -/
inductive FetchRes
  | fail
  | ret (ps : List ℚ)
  deriving DecidableEq, Repr

/-- The two-stage fetch for one symbol inside `has_open_positions`
(bot.py lines 335-341 and 353-364): the symbol-specific call, then the
fetch-all fallback. -/
structure SymFetch where
  specific : FetchRes
  general : FetchRes
  deriving DecidableEq, Repr

/-- Embeds the fallback chain: use the specific fetch if it did not
raise, else the general fetch, else nothing (`pos = None`). -/
def fetch_chain (specific general : FetchRes) : Option (List ℚ) :=
  match specific with
  | FetchRes.ret l => some l
  | FetchRes.fail =>
    match general with
    | FetchRes.ret l => some l
    | FetchRes.fail => none

/-- Embeds the per-symbol body of `has_open_positions` (bot.py lines
342-349 and 365-375): with a nonempty fetched list, the first entry's
raw quantity is tested for `abs(...) > 0`; a raised-and-raised fetch or
an empty list is treated as no open position on that symbol. -/
def sym_reports_open (f : SymFetch) : Bool :=
  match fetch_chain f.specific f.general with
  | some (q :: _) => decide (0 < |q|)
  | _ => false

/-- Embeds `has_open_positions()` (bot.py lines 331-378): scan the
traded Binance symbols then the mapped KuCoin symbols, returning true on
the first open quantity; `outer_exc` models an exception escaping the
whole body (line 377-378), the only path that returns true on error. -/
def has_open_positions (outer_exc : Bool) (binFetches kcFetches : List SymFetch) : Bool :=
  if outer_exc then true
  else binFetches.any sym_reports_open || kcFetches.any sym_reports_open

/-- Venue market parameters used by `compute_amount_for_notional`. -/
structure MarketParams where
  isBinance : Bool
  contract_size : ℚ
  amount_precision : Option ℤ
  deriving DecidableEq, Repr

/-- Outcome of the venue side of a market order submission: the call
raised before an order existed, or an order filled with an optional
extracted average price (`extract_executed_price_and_time` can return
`None`). -/
inductive OrderResult
  | raises
  | filled (price : Option ℚ)
  deriving DecidableEq, Repr

/-- What one `safe_create_order` call did: whether an order reached the
venue, the returned success flag, and the returned execution price. -/
structure LegOutcome where
  placed : Bool
  ok : Bool
  exec_price : Option ℚ
  deriving DecidableEq, Repr

/-- Embeds `safe_create_order(exchange, side, notional, price, symbol)`
(bot.py lines 641-676): compute the amount for the notional, round it
down again, and if it is non-positive return failure WITHOUT submitting
any order (lines 644-646); otherwise submit and report the venue
outcome. -/
def safe_create_order_m (mp : MarketParams) (notional price : ℚ)
    (venue : OrderResult) : LegOutcome :=
  let r := compute_amount_for_notional mp.isBinance mp.contract_size
    mp.amount_precision notional price
  let amt := round_down r.amt mp.amount_precision
  if amt ≤ 0 then ⟨false, false, none⟩
  else
    match venue with
    | OrderResult.raises => ⟨false, false, none⟩
    | OrderResult.filled p => ⟨true, true, p⟩

/-- Mismatch percentage between two implied notionals (bot.py line
1075): `abs(a-b)/max(a,b)*100` when the max is positive, else 100. -/
def mismatch_pct (a b : ℚ) : ℚ :=
  if 0 < max a b then |a - b| / max a b * 100 else 100

/-- Observable outcome of one `execute_caseA` run: which orders were
submitted, whether the position was recorded (accepted), and whether
`close_all_and_wait` ran. -/
structure CaseOutcome where
  placed_bin : Bool
  placed_kc : Bool
  placed_reb : Bool
  accepted : Bool
  flattened : Bool
  deriving DecidableEq, Repr

/-- Python `reb_exec_price or exec_price` (bot.py lines 1130, 1134):
falls back when the rebalance price is `None` or `0.0`. -/
def price_or (reb : Option ℚ) (fallback : ℚ) : ℚ :=
  match reb with
  | some q => if q = 0 then fallback else q
  | none => fallback

/-- Embeds `execute_caseA` (bot.py lines 1047-1180) at the granularity
of orders and cleanup.  Both legs are dispatched unconditionally (the
threads at lines 1058-1062); the join then either accepts, rebalances
(lines 1116-1162, including the source's addition of BOTH recomputed
implieds even though only one rebalance order is placed), accepts a
sub-minimum residual, or flattens everything via `close_all_and_wait`.
Venue behaviour (`venueBin`, `venueKc`, `venueReb`) is oracle input. -/
def execute_caseA_model (mpBin mpKc : MarketParams) (bin_ask kc_bid : ℚ)
    (venueBin venueKc venueReb : OrderResult) : CaseOutcome :=
  let legKc := safe_create_order_m mpKc NOTIONAL kc_bid venueKc
  let legBin := safe_create_order_m mpBin NOTIONAL bin_ask venueBin
  match legKc.ok, legBin.ok, legKc.exec_price, legBin.exec_price with
  | true, true, some pk, some pb =>
    let implied_bin := (compute_amount_for_notional mpBin.isBinance
      mpBin.contract_size mpBin.amount_precision NOTIONAL pb).implied
    let implied_kc := (compute_amount_for_notional mpKc.isBinance
      mpKc.contract_size mpKc.amount_precision NOTIONAL pk).implied
    if mismatch_pct implied_bin implied_kc ≤ MAX_NOTIONAL_MISMATCH_PCT then
      ⟨legBin.placed, legKc.placed, false, true, false⟩
    else
      let diff := |implied_bin - implied_kc|
      if REBALANCE_MIN_DOLLARS ≤ diff then
        let rebLeg :=
          if implied_bin < implied_kc then safe_create_order_m mpBin diff pb venueReb
          else safe_create_order_m mpKc diff pk venueReb
        if rebLeg.ok then
          let added_bin := (compute_amount_for_notional mpBin.isBinance
            mpBin.contract_size mpBin.amount_precision diff
            (price_or rebLeg.exec_price pb)).implied
          let added_kc := (compute_amount_for_notional mpKc.isBinance
            mpKc.contract_size mpKc.amount_precision diff
            (price_or rebLeg.exec_price pk)).implied
          if mismatch_pct (implied_bin + added_bin) (implied_kc + added_kc) ≤
              MAX_NOTIONAL_MISMATCH_PCT then
            ⟨legBin.placed, legKc.placed, rebLeg.placed, true, false⟩
          else ⟨legBin.placed, legKc.placed, rebLeg.placed, false, true⟩
        else ⟨legBin.placed, legKc.placed, rebLeg.placed, false, true⟩
      else ⟨legBin.placed, legKc.placed, false, true, false⟩
  | _, _, _, _ => ⟨legBin.placed, legKc.placed, false, false, true⟩

/-! Shared helper lemmas. -/

/-- Floor-rounding never increases the value. -/
theorem round_down_le (value : ℚ) (p : Option ℤ) : round_down value p ≤ value := by
  cases p with
  | none => exact le_refl _
  | some p =>
      have hpow : (0 : ℚ) < (10 : ℚ) ^ p := zpow_pos (by norm_num) p
      have hfl : ((⌊value * (10 : ℚ) ^ p⌋ : ℚ)) ≤ value * (10 : ℚ) ^ p := Int.floor_le _
      calc (⌊value * (10 : ℚ) ^ p⌋ : ℚ) / (10 : ℚ) ^ p
          ≤ value * (10 : ℚ) ^ p / (10 : ℚ) ^ p := div_le_div_of_nonneg_right hfl hpow.le
        _ = value := by field_simp

/-- Any counter increment or dispatch of `scanner_eval` happens with both
prices present, the entry guard satisfied, and the directional trigger
spread at or above the entry threshold. -/
theorem scanner_eval_progress (env : ScanEnv) (posMap : ℕ → Option Case) (sym : ℕ)
    (resolveOk : Bool) (count : ℕ) (b k : Option Tick)
    (h : (scanner_eval env posMap sym resolveOk count b k).2 ≠ none ∨
      (scanner_eval env posMap sym resolveOk count b k).1 = count + 1) :
    ∃ bt kt, b = some bt ∧ k = some kt ∧
      posMap sym = none ∧ env.closing_in_progress = false ∧ env.has_open = false ∧
      ((bt.ask < kt.bid ∧ ENTRY_SPREAD ≤ 100 * (kt.bid - bt.ask) / bt.ask) ∨
       (¬ bt.ask < kt.bid ∧ kt.ask < bt.bid ∧
         ENTRY_SPREAD ≤ 100 * (bt.bid - kt.ask) / kt.ask)) := by
  cases b with
  | none => simp [scanner_eval] at h
  | some bt =>
    cases k with
    | none => simp [scanner_eval] at h
    | some kt =>
      by_cases h1 : bt.ask < kt.bid
      · by_cases hg : entry_guard env posMap sym (100 * (kt.bid - bt.ask) / bt.ask)
        · exact ⟨bt, kt, rfl, rfl, hg.1, hg.2.2.1, hg.2.2.2, Or.inl ⟨h1, hg.2.1⟩⟩
        · simp [scanner_eval, h1, hg] at h
      · by_cases h2 : kt.ask < bt.bid
        · by_cases hg : entry_guard env posMap sym (100 * (bt.bid - kt.ask) / kt.ask)
          · exact ⟨bt, kt, rfl, rfl, hg.1, hg.2.2.1, hg.2.2.2, Or.inr ⟨h1, h2, hg.2.1⟩⟩
          · simp [scanner_eval, h1, h2, hg] at h
        · simp [scanner_eval, h1, h2] at h

/-- A `safe_create_order` call that reports failure placed no order. -/
theorem safe_order_fail_not_placed (mp : MarketParams) (notional price : ℚ)
    (venue : OrderResult) (h : (safe_create_order_m mp notional price venue).ok = false) :
    (safe_create_order_m mp notional price venue).placed = false := by
  simp only [safe_create_order_m] at h ⊢
  split_ifs at h ⊢ with h0
  · rfl
  · cases venue with
    | raises => rfl
    | filled p => simp at h

/-! Claim C2.  The spec (and the log line at bot.py 1081) say the entry
basis is the trigger spread whenever the realized spread is at least the
trigger spread.  The assignment at bot.py line 1080 uses the realized
spread in BOTH branches of its conditional, so the recorded basis is
always the realized spread.  The code contradicts the log message it
prints on the same path. -/

/-- C2: the recorded entry basis always equals the realized spread, for
both cases; at the failing input (Case A fills 103/100 after triggering
at 101/100) the realized spread is 3 percent, at or above the 1 percent
trigger spread, yet the code records 3 where the claim (and the spec
modelled basis) require 1. -/
theorem claim2_entry_basis_bug :
    (∀ pk pb kb ba : ℚ,
      final_entry_spread_caseA pk pb kb ba = real_entry_spread_caseA pk pb) ∧
    (∀ pb pk bb ka : ℚ,
      final_entry_spread_caseB pb pk bb ka = real_entry_spread_caseB pb pk) ∧
    final_entry_spread_caseA 103 100 101 100 = 3 ∧
    real_entry_spread_caseA 103 100 = 3 ∧
    trigger_spread_caseA 101 100 = 1 ∧
    claimed_entry_basis_caseA 103 100 101 100 = 1 := by
  refine ⟨?_, ?_, ?_, ?_, ?_, ?_⟩
  · intro pk pb kb ba; simp [final_entry_spread_caseA]
  · intro pb pk bb ka; simp [final_entry_spread_caseB]
  · norm_num [final_entry_spread_caseA, real_entry_spread_caseA, trigger_spread_caseA]
  · norm_num [real_entry_spread_caseA]
  · norm_num [trigger_spread_caseA]
  · norm_num [claimed_entry_basis_caseA, real_entry_spread_caseA, trigger_spread_caseA]

/-! Claim C1.  The entry guard at bot.py 1516/1562 checks only the
CANDIDATE symbol's recorded position (`positions.get(sym) is None`),
not the whole `positions` dictionary; the cross-symbol protection is
the venue query `has_open_positions()` alone.  If another symbol has a
recorded open position while the venue reports flat, the counter still
increments. -/

/-- A `positions` dictionary in which symbol 0 has a recorded open
Case A position. -/
def posMapOneOpen : ℕ → Option Case :=
  fun s => if s = 0 then some Case.caseA else none

/-- C1 counterexample: with symbol 0 recorded open but the venue check
reporting clear, the confirmation counter for symbol 1 still
increments, refuting the form in which no symbol may have a recorded
open position. -/
theorem claim1_counterexample :
    posMapOneOpen 0 = some Case.caseA ∧
    scanner_eval ⟨false, false, false⟩ posMapOneOpen 1 true 0
      (some ⟨100, 100⟩) (some ⟨103, 104⟩) = (1, none) := by
  constructor
  · rfl
  · norm_num [scanner_eval, entry_guard, ENTRY_SPREAD, posMapOneOpen]

/-- C1 amended: the counter is only incremented, and an entry only
dispatched, when the candidate symbol itself has no recorded open
position, no close is in progress, and the venue position check reports
no open quantity. -/
theorem claim1_entry_guard (env : ScanEnv) (posMap : ℕ → Option Case) (sym : ℕ)
    (resolveOk : Bool) (count : ℕ) (b k : Option Tick)
    (h : (scanner_eval env posMap sym resolveOk count b k).2 ≠ none ∨
      (scanner_eval env posMap sym resolveOk count b k).1 = count + 1) :
    posMap sym = none ∧ env.closing_in_progress = false ∧ env.has_open = false := by
  obtain ⟨bt, kt, _, _, h3, h4, h5, _⟩ :=
    scanner_eval_progress env posMap sym resolveOk count b k h
  exact ⟨h3, h4, h5⟩

/-- C1 witness: the amended theorem applied at a concrete incrementing
poll. -/
theorem claim1_witness :
    (fun _ : ℕ => (none : Option Case)) 0 = none ∧
    (⟨false, false, false⟩ : ScanEnv).closing_in_progress = false ∧
    (⟨false, false, false⟩ : ScanEnv).has_open = false :=
  claim1_entry_guard ⟨false, false, false⟩ (fun _ => none) 0 true 0
    (some ⟨100, 100⟩) (some ⟨103, 104⟩)
    (Or.inr (by norm_num [scanner_eval, entry_guard, ENTRY_SPREAD]))

/-! Claim C3.  The watcher does submit a targeted reduce-only close on
the surviving leg and then the full flatten routine, and sets
`terminate_bot = True` (bot.py 844-867) — but `scanner_main_loop` never
reads `terminate_bot` (its only readers are the exit monitor, line 1323,
and the watcher itself), so after a liquidation the scanner can still
confirm and dispatch a brand-new entry. -/

/-- C3: a leg going 12 then 0 then 0 triggers the Binance-side
sustained-zero handler on the second poll; the handler closes the
surviving KuCoin leg, flattens everything and sets the terminate flag;
and yet the scanner evaluation dispatches a new Case A entry in a state
with the terminate flag set — indeed its result does not depend on the
flag at all. -/
theorem claim3_liquidation_bug :
    (watcher_run (watcher_init (some 12) (some 5))
      [(false, some 0, some 5), (false, some 0, some 5)]).2 =
      [WatchEvent.quiet, WatchEvent.triggerBin] ∧
    on_sustained_zero Venue.binance =
      ([BotAction.targetedClose Venue.kucoin, BotAction.flattenAll], true) ∧
    (∀ t : Bool, scanner_eval ⟨false, false, t⟩ (fun _ => none) 0 true 2
      (some ⟨100, 100⟩) (some ⟨103, 104⟩) = (0, some Case.caseA)) := by
  refine ⟨?_, rfl, ?_⟩
  · norm_num [watcher_run, watcher_init, watcher_step, leg_update,
      ZERO_ABS_THRESHOLD, WATCHER_DETECT_CONFIRM]
  · intro t
    norm_num [scanner_eval, entry_guard, ENTRY_SPREAD]

/-! Claim C4.  The scanner has no lower abort threshold and no
transition distinct from the ordinary reset: every observation below
the entry threshold — however deep — takes the identical branch that
zeroes the counter (bot.py 1497-1509 and 1553-1556).  What does hold is
that no order can be placed in a cycle whose observation is below the
threshold, and any increment or dispatch requires the observed spread
to be at or above the entry threshold. -/

/-- C4 counterexample: with the counter at 2, a deep below-abort
observation (spread 0.5 percent) and an ordinary condition-false
observation (spread 1.2 percent, below the 1.5 percent entry threshold)
produce the identical transition, both resetting to 0 with no dispatch
— there is no distinct abort transition. -/
theorem claim4_counterexample :
    scanner_eval ⟨false, false, false⟩ (fun _ => none) 0 true 2
      (some ⟨100, 100⟩) (some ⟨201 / 2, 101⟩) = (0, none) ∧
    scanner_eval ⟨false, false, false⟩ (fun _ => none) 0 true 2
      (some ⟨100, 100⟩) (some ⟨506 / 5, 101⟩) = (0, none) ∧
    scanner_eval ⟨false, false, false⟩ (fun _ => none) 0 true 2
      (some ⟨100, 100⟩) (some ⟨201 / 2, 101⟩) =
    scanner_eval ⟨false, false, false⟩ (fun _ => none) 0 true 2
      (some ⟨100, 100⟩) (some ⟨506 / 5, 101⟩) := by
  refine ⟨?_, ?_, ?_⟩ <;>
    norm_num [scanner_eval, entry_guard, ENTRY_SPREAD]

/-- C4 amended: any observation whose directional spread is below the
entry threshold (in particular any below-abort observation) resets the
counter to 0 and dispatches nothing, via the same transition as an
ordinary condition-false observation; and every increment or dispatch
implies the observed spread was at or above the entry threshold, so an
order placement implies no below-threshold observation was counted
since the last reset. -/
theorem claim4_abort_reset :
    (∀ (env : ScanEnv) (pm : ℕ → Option Case) (sym : ℕ) (r : Bool) (c : ℕ) (bt kt : Tick),
      bt.ask < kt.bid → 100 * (kt.bid - bt.ask) / bt.ask < ENTRY_SPREAD →
      scanner_eval env pm sym r c (some bt) (some kt) = (0, none)) ∧
    (∀ (env : ScanEnv) (pm : ℕ → Option Case) (sym : ℕ) (r : Bool) (c : ℕ) (bt kt : Tick),
      ¬ bt.ask < kt.bid → kt.ask < bt.bid →
      100 * (bt.bid - kt.ask) / kt.ask < ENTRY_SPREAD →
      scanner_eval env pm sym r c (some bt) (some kt) = (0, none)) ∧
    (∀ (env : ScanEnv) (pm : ℕ → Option Case) (sym : ℕ) (r : Bool) (c : ℕ)
      (b k : Option Tick),
      (scanner_eval env pm sym r c b k).2 ≠ none ∨
        (scanner_eval env pm sym r c b k).1 = c + 1 →
      ∃ bt kt, b = some bt ∧ k = some kt ∧
        ((bt.ask < kt.bid ∧ ENTRY_SPREAD ≤ 100 * (kt.bid - bt.ask) / bt.ask) ∨
         (¬ bt.ask < kt.bid ∧ kt.ask < bt.bid ∧
           ENTRY_SPREAD ≤ 100 * (bt.bid - kt.ask) / kt.ask))) := by
  refine ⟨?_, ?_, ?_⟩
  · intro env pm sym r c bt kt h1 hts
    have hng : ¬ entry_guard env pm sym (100 * (kt.bid - bt.ask) / bt.ask) :=
      fun hg => absurd hg.2.1 (not_le.mpr hts)
    simp [scanner_eval, h1, hng]
  · intro env pm sym r c bt kt h1 h2 hts
    have hng : ¬ entry_guard env pm sym (100 * (bt.bid - kt.ask) / kt.ask) :=
      fun hg => absurd hg.2.1 (not_le.mpr hts)
    simp [scanner_eval, h1, h2, hng]
  · intro env pm sym r c b k h
    obtain ⟨bt, kt, hb, hk, _, _, _, hdir⟩ :=
      scanner_eval_progress env pm sym r c b k h
    exact ⟨bt, kt, hb, hk, hdir⟩

/-- C4 witness: the amended theorem applied at concrete inputs; a
below-threshold observation at counter 2 resets to (0, none). -/
theorem claim4_witness :
    scanner_eval ⟨false, false, false⟩ (fun _ => none) 0 true 2
      (some ⟨100, 100⟩) (some ⟨401 / 4, 101⟩) = (0, none) :=
  claim4_abort_reset.1 ⟨false, false, false⟩ (fun _ => none) 0 true 2
    ⟨100, 100⟩ ⟨401 / 4, 101⟩ (by norm_num) (by norm_num [ENTRY_SPREAD])

/-! Claim C5.  Entry and exit counters increment on condition-true,
reset on condition-false, and fire-and-reset at 3 — but a poll with
missing price data leaves the counter UNCHANGED (bot.py 1490-1492, with
the source comment "do not change confirmation count", and the
`continue` at line 1340), it does not reset it. -/

/-- C5 counterexample: with the entry counter at 2 and the Binance price
fetch failing this round, the counter stays at 2 instead of resetting to
0; likewise for the exit counter. -/
theorem claim5_counterexample :
    scanner_eval ⟨false, false, false⟩ (fun _ => none) 0 true 2
      none (some ⟨100, 101⟩) = (2, none) ∧
    exit_step none (some ⟨100, 101⟩) (some Case.caseA) 5 100 100 2 = (2, false) ∧
    (2 : ℕ) ≠ 0 := by
  refine ⟨rfl, rfl, by decide⟩

/-- C5 amended: on every poll with both prices present the entry counter
increments by one exactly when the entry guard holds (firing and
resetting at 3), and resets to 0 when it fails or when neither direction
is open; the exit counter does the same against the exit condition; and
a poll with missing price data leaves either counter unchanged. -/
theorem claim5_counter_semantics :
    (∀ (env : ScanEnv) (pm : ℕ → Option Case) (sym : ℕ) (r : Bool) (c : ℕ) (bt kt : Tick),
      bt.ask < kt.bid → entry_guard env pm sym (100 * (kt.bid - bt.ask) / bt.ask) →
      c + 1 < 3 → scanner_eval env pm sym r c (some bt) (some kt) = (c + 1, none)) ∧
    (∀ (env : ScanEnv) (pm : ℕ → Option Case) (sym : ℕ) (c : ℕ) (bt kt : Tick),
      bt.ask < kt.bid → entry_guard env pm sym (100 * (kt.bid - bt.ask) / bt.ask) →
      3 ≤ c + 1 → scanner_eval env pm sym true c (some bt) (some kt) =
        (0, some Case.caseA)) ∧
    (∀ (env : ScanEnv) (pm : ℕ → Option Case) (sym : ℕ) (r : Bool) (c : ℕ) (bt kt : Tick),
      bt.ask < kt.bid → ¬ entry_guard env pm sym (100 * (kt.bid - bt.ask) / bt.ask) →
      scanner_eval env pm sym r c (some bt) (some kt) = (0, none)) ∧
    (∀ (env : ScanEnv) (pm : ℕ → Option Case) (sym : ℕ) (r : Bool) (c : ℕ) (bt kt : Tick),
      ¬ bt.ask < kt.bid → kt.ask < bt.bid →
      entry_guard env pm sym (100 * (bt.bid - kt.ask) / kt.ask) →
      c + 1 < 3 → scanner_eval env pm sym r c (some bt) (some kt) = (c + 1, none)) ∧
    (∀ (env : ScanEnv) (pm : ℕ → Option Case) (sym : ℕ) (c : ℕ) (bt kt : Tick),
      ¬ bt.ask < kt.bid → kt.ask < bt.bid →
      entry_guard env pm sym (100 * (bt.bid - kt.ask) / kt.ask) →
      3 ≤ c + 1 → scanner_eval env pm sym true c (some bt) (some kt) =
        (0, some Case.caseB)) ∧
    (∀ (env : ScanEnv) (pm : ℕ → Option Case) (sym : ℕ) (r : Bool) (c : ℕ) (bt kt : Tick),
      ¬ bt.ask < kt.bid → ¬ kt.ask < bt.bid →
      scanner_eval env pm sym r c (some bt) (some kt) = (0, none)) ∧
    (∀ (env : ScanEnv) (pm : ℕ → Option Case) (sym : ℕ) (r : Bool) (c : ℕ)
      (k : Option Tick), scanner_eval env pm sym r c none k = (c, none)) ∧
    (∀ (env : ScanEnv) (pm : ℕ → Option Case) (sym : ℕ) (r : Bool) (c : ℕ)
      (b : Option Tick), scanner_eval env pm sym r c b none = (c, none)) ∧
    (∀ (bt kt : Tick) (cse : Case) (basis pb pk : ℚ) (n : ℕ),
      exit_condition basis (exit_spread_of cse bt kt pb pk) → n + 1 < 3 →
      exit_step (some bt) (some kt) (some cse) basis pb pk n = (n + 1, false)) ∧
    (∀ (bt kt : Tick) (cse : Case) (basis pb pk : ℚ) (n : ℕ),
      exit_condition basis (exit_spread_of cse bt kt pb pk) → 3 ≤ n + 1 →
      exit_step (some bt) (some kt) (some cse) basis pb pk n = (0, true)) ∧
    (∀ (bt kt : Tick) (cse : Case) (basis pb pk : ℚ) (n : ℕ),
      ¬ exit_condition basis (exit_spread_of cse bt kt pb pk) →
      exit_step (some bt) (some kt) (some cse) basis pb pk n = (0, false)) ∧
    (∀ (k : Option Tick) (cse : Case) (basis pb pk : ℚ) (n : ℕ),
      exit_step none k (some cse) basis pb pk n = (n, false)) ∧
    (∀ (b : Option Tick) (cse : Case) (basis pb pk : ℚ) (n : ℕ),
      exit_step b none (some cse) basis pb pk n = (n, false)) := by
  refine ⟨?_, ?_, ?_, ?_, ?_, ?_, ?_, ?_, ?_, ?_, ?_, ?_, ?_⟩
  · intro env pm sym r c bt kt h1 hg hc
    simp [scanner_eval, h1, hg, not_lt.mpr hg.2.1, not_le.mpr hc]
  · intro env pm sym c bt kt h1 hg hc
    simp [scanner_eval, h1, hg, not_lt.mpr hg.2.1, hc]
  · intro env pm sym r c bt kt h1 hng
    simp [scanner_eval, h1, hng]
  · intro env pm sym r c bt kt h1 h2 hg hc
    simp [scanner_eval, h1, h2, hg, not_lt.mpr hg.2.1, not_le.mpr hc]
  · intro env pm sym c bt kt h1 h2 hg hc
    simp [scanner_eval, h1, h2, hg, not_lt.mpr hg.2.1, hc]
  · intro env pm sym r c bt kt h1 h2
    simp [scanner_eval, h1, h2]
  · intro env pm sym r c k; cases k <;> rfl
  · intro env pm sym r c b; cases b <;> rfl
  · intro bt kt cse basis pb pk n hcond hn
    simp [exit_step, hcond, not_le.mpr hn]
  · intro bt kt cse basis pb pk n hcond hn
    simp [exit_step, hcond, hn]
  · intro bt kt cse basis pb pk n hcond
    simp [exit_step, hcond]
  · intro k cse basis pb pk n; cases k <;> rfl
  · intro b cse basis pb pk n; cases b <;> rfl

/-- C5 witness: the amended theorem applied at a concrete incrementing
poll of the entry counter. -/
theorem claim5_witness :
    scanner_eval ⟨false, false, false⟩ (fun _ => none) 0 true 1
      (some ⟨100, 100⟩) (some ⟨103, 104⟩) = (2, none) :=
  claim5_counter_semantics.1 ⟨false, false, false⟩ (fun _ => none) 0 true 1
    ⟨100, 100⟩ ⟨103, 104⟩ (by norm_num)
    (by refine ⟨rfl, by norm_num [ENTRY_SPREAD], rfl, rfl⟩) (by norm_num)

/-! Claim C6.  The matcher is a pure function (hence deterministic) and
floors the common base amount — but floor-rounding happens against the
MID reference price, so a leg whose own price is above the mid can carry
an implied notional strictly above the target; and a side that floors to
zero is bumped UP to one step rather than failing. -/

/-- C6 counterexample: target 100 dollars, Binance price 20, KuCoin
price 10, both precisions 0, both contract sizes 1: the floored Binance
base quantity is 6, whose implied notional 120 exceeds the target 100. -/
theorem claim6_counterexample :
    (match_base_exposure_per_exchange (some 0) (some 0) 1 1 100 20 10).notional_bin = 120 ∧
    (100 : ℚ) < 120 := by
  constructor
  · norm_num [match_base_exposure_per_exchange, ref_price_of, round_down]
  · norm_num

/-- C6 amended: the matcher is deterministic, and whenever a side's
floored quantity is positive it is bounded by the common target base
amount (floor-only at that stage); the per-leg helper
`compute_amount_for_notional` never exceeds the target notional on the
KuCoin branch nor on the Binance branch with unit contract size; but no
such bound ties the matcher's per-leg NOTIONAL to the target (see the
counterexample). -/
theorem claim6_matcher :
    (∀ (bprec kprec : Option ℤ) (bcs kcs d bp kp : ℚ),
      match_base_exposure_per_exchange bprec kprec bcs kcs d bp kp =
        match_base_exposure_per_exchange bprec kprec bcs kcs d bp kp) ∧
    (∀ (bprec kprec : Option ℤ) (bcs kcs d bp kp : ℚ),
      0 < round_down (d / ref_price_of bp kp) bprec →
      (match_base_exposure_per_exchange bprec kprec bcs kcs d bp kp).bin_base_amount ≤
        d / ref_price_of bp kp) ∧
    (∀ (bprec kprec : Option ℤ) (bcs kcs d bp kp : ℚ), 0 < kcs →
      0 < round_down (d / ref_price_of bp kp / kcs) kprec →
      (match_base_exposure_per_exchange bprec kprec bcs kcs d bp kp).kc_contracts * kcs ≤
        d / ref_price_of bp kp) ∧
    (∀ (prec : Option ℤ) (d p : ℚ), 0 < p →
      (compute_amount_for_notional true 1 prec d p).implied ≤ d) ∧
    (∀ (prec : Option ℤ) (cs d p : ℚ), 0 < p → 0 < cs →
      (compute_amount_for_notional false cs prec d p).implied ≤ d) := by
  refine ⟨fun _ _ _ _ _ _ _ => rfl, ?_, ?_, ?_, ?_⟩
  · intro bprec kprec bcs kcs d bp kp h
    have hne : ¬ (round_down (d / ref_price_of bp kp) bprec ≤ 0) := not_le.mpr h
    simp only [match_base_exposure_per_exchange, hne, if_false]
    exact round_down_le _ _
  · intro bprec kprec bcs kcs d bp kp hk h
    have hne : ¬ (round_down (d / ref_price_of bp kp / kcs) kprec ≤ 0) := not_le.mpr h
    simp only [match_base_exposure_per_exchange, hk, if_true, hne, if_false]
    exact (le_div_iff₀ hk).mp (round_down_le _ _)
  · intro prec d p hp
    have hnp : ¬ (p ≤ 0) := not_le.mpr hp
    simp only [compute_amount_for_notional, hnp, if_false, if_true]
    have h2 : round_down (d / p) prec * p ≤ d / p * p :=
      mul_le_mul_of_nonneg_right (round_down_le _ _) hp.le
    have h3 : d / p * p = d := div_mul_cancel₀ d (ne_of_gt hp)
    rw [mul_one]
    linarith
  · intro prec cs d p hp hcs
    have hnp : ¬ (p ≤ 0) := not_le.mpr hp
    have hcs0 : cs ≠ 0 := ne_of_gt hcs
    simp only [compute_amount_for_notional, hnp, if_false, hcs0, ne_eq,
      not_false_eq_true, if_true, Bool.false_eq_true]
    have h2 : round_down (d / p / cs) prec * cs ≤ d / p :=
      (le_div_iff₀ hcs).mp (round_down_le _ _)
    have h3 : round_down (d / p / cs) prec * cs * p ≤ d / p * p :=
      mul_le_mul_of_nonneg_right h2 hp.le
    have h4 : d / p * p = d := div_mul_cancel₀ d (ne_of_gt hp)
    linarith

/-- C6 witness: the amended theorem applied at a concrete input of the
per-leg helper. -/
theorem claim6_witness :
    (compute_amount_for_notional true 1 (some 3) 10 10).implied ≤ 10 :=
  claim6_matcher.2.2.2.1 (some 3) 10 10 (by norm_num)

/-! Claim C7.  `safe_create_order` does refuse to submit when the
quantity floors to non-positive (bot.py 644-646) — but the two legs are
dispatched concurrently with no pre-check, so the OTHER leg's order is
still placed, and the join then flattens everything
(`close_all_and_wait`, line 1179): cleanup IS needed. -/

/-- C7 counterexample: a 10-dollar notional at KuCoin price 100000 with
precision 3 floors to zero contracts; the KuCoin leg places nothing, but
the Binance leg's order is placed, the attempt is rejected at the join,
and the flatten routine runs. -/
theorem claim7_counterexample :
    round_down (compute_amount_for_notional false 1 (some 3) NOTIONAL 100000).amt
      (some 3) ≤ 0 ∧
    execute_caseA_model ⟨true, 1, some 3⟩ ⟨false, 1, some 3⟩ 10 100000
      (OrderResult.filled (some 10)) (OrderResult.filled (some 100000))
      OrderResult.raises = ⟨true, false, false, false, true⟩ := by
  constructor
  · norm_num [compute_amount_for_notional, round_down, NOTIONAL]
  · norm_num [execute_caseA_model, safe_create_order_m, compute_amount_for_notional,
      round_down, NOTIONAL]

/-- C7 amended: a leg whose quantity floors to non-positive submits no
order on ITS venue and reports failure; whenever either leg reports
failure the attempt is not accepted and the flatten-everything cleanup
runs (the other leg may well have placed its order). -/
theorem claim7_zero_qty :
    (∀ (mp : MarketParams) (n p : ℚ) (v : OrderResult),
      round_down (compute_amount_for_notional mp.isBinance mp.contract_size
        mp.amount_precision n p).amt mp.amount_precision ≤ 0 →
      safe_create_order_m mp n p v = ⟨false, false, none⟩) ∧
    (∀ (mpB mpK : MarketParams) (ba kb : ℚ) (vb vk vr : OrderResult),
      (safe_create_order_m mpK NOTIONAL kb vk).ok = false →
      (execute_caseA_model mpB mpK ba kb vb vk vr).placed_kc = false ∧
      (execute_caseA_model mpB mpK ba kb vb vk vr).accepted = false ∧
      (execute_caseA_model mpB mpK ba kb vb vk vr).flattened = true) ∧
    (∀ (mpB mpK : MarketParams) (ba kb : ℚ) (vb vk vr : OrderResult),
      (safe_create_order_m mpB NOTIONAL ba vb).ok = false →
      (execute_caseA_model mpB mpK ba kb vb vk vr).placed_bin = false ∧
      (execute_caseA_model mpB mpK ba kb vb vk vr).accepted = false ∧
      (execute_caseA_model mpB mpK ba kb vb vk vr).flattened = true) := by
  refine ⟨?_, ?_, ?_⟩
  · intro mp n p v h
    simp only [safe_create_order_m, if_pos h]
  · intro mpB mpK ba kb vb vk vr h
    have hp := safe_order_fail_not_placed mpK NOTIONAL kb vk h
    simp only [execute_caseA_model]
    rw [h, hp]
    simp
  · intro mpB mpK ba kb vb vk vr h
    have hp := safe_order_fail_not_placed mpB NOTIONAL ba vb h
    simp only [execute_caseA_model]
    rw [h, hp]
    · cases hok : (safe_create_order_m mpK NOTIONAL kb vk).ok <;> simp

/-- C7 witness: the amended theorem applied at the concrete
floored-to-zero KuCoin leg. -/
theorem claim7_witness :
    (execute_caseA_model ⟨true, 1, some 3⟩ ⟨false, 1, some 3⟩ 10 100000
      (OrderResult.filled (some 10)) (OrderResult.filled (some 100000))
      OrderResult.raises).accepted = false :=
  (claim7_zero_qty.2.1 ⟨true, 1, some 3⟩ ⟨false, 1, some 3⟩ 10 100000
    (OrderResult.filled (some 10)) (OrderResult.filled (some 100000))
    OrderResult.raises
    (by norm_num [safe_create_order_m, compute_amount_for_notional,
      round_down, NOTIONAL])).2.1

/-! Claim C8.  `calculate_spread` is pure, and zero prices (falsy in
Python) or non-positive Binance prices yield no signal — but it does NOT
return the larger-magnitude direction: the positive direction takes
precedence whenever it crosses its 0.01 floor, and negative KuCoin
prices are never screened. -/

/-- C8 counterexample: with positive-direction spread 0.02 and
negative-direction spread -10, the function returns 0.02, not the
larger-magnitude -10; and a negative KuCoin ask still produces a
signal. -/
theorem claim8_counterexample :
    calculate_spread 100 100 (5001 / 50) 90 = some (1 / 50) ∧
    (1 / 50 : ℚ) < |(90 - 100 : ℚ) / 100 * 100| ∧
    calculate_spread 100 101 90 (-5) = some (-105) ∧ (-5 : ℚ) ≤ 0 := by
  refine ⟨?_, ?_, ?_, ?_⟩
  · norm_num [calculate_spread]
  · rw [abs_of_nonpos] <;> norm_num
  · norm_num [calculate_spread]
  · norm_num

/-- C8 amended: every returned signal is one of the two directional
formulas and crosses its 0.01-percent floor, with the positive direction
taking precedence; any zero price, or a non-positive Binance price,
yields no signal (negative KuCoin prices are not screened); the function
is pure. -/
theorem claim8_spread_eval :
    (∀ bb ba kb ka s : ℚ, calculate_spread bb ba kb ka = some s →
      (1 / 100 < s ∧ s = (kb - ba) / ba * 100) ∨
      (s < -(1 / 100) ∧ s = (ka - bb) / bb * 100)) ∧
    (∀ bb ba kb ka : ℚ,
      (bb = 0 ∨ ba = 0 ∨ kb = 0 ∨ ka = 0 ∨ ba ≤ 0 ∨ bb ≤ 0) →
      calculate_spread bb ba kb ka = none) := by
  constructor
  · intro bb ba kb ka s h
    simp only [calculate_spread] at h
    split_ifs at h with h0 h1 h2
    · injection h with hv
      exact Or.inl ⟨hv ▸ h1, hv.symm⟩
    · injection h with hv
      exact Or.inr ⟨hv ▸ h2, hv.symm⟩
  · intro bb ba kb ka h
    simp only [calculate_spread, if_pos h]

/-- C8 witness: the amended theorem applied at a concrete snapshot with
a 3 percent positive-direction spread. -/
theorem claim8_witness :
    (1 / 100 < (3 : ℚ) ∧ (3 : ℚ) = (103 - 100) / 100 * 100) ∨
    ((3 : ℚ) < -(1 / 100) ∧ (3 : ℚ) = (104 - 100) / 100 * 100) :=
  claim8_spread_eval.1 100 100 103 104 3 (by norm_num [calculate_spread])

/-! Claim C9.  The liquidation watcher increments a leg's
consecutive-zero counter only on a poll where both fetches succeeded,
only when that leg's reading is zero (within the absolute threshold
`1e-8` the source uses as its zero test), and only after the leg has
been seen nonzero; a run that never observes a nonzero reading on the
leg can never trigger its sustained-zero handling, while two zero polls
after a nonzero initial reading do trigger it. -/

/-- C9: (i) any increment of the Binance-leg counter requires no
closing/reset flag, a prior nonzero observation, and successful fetches
with a zero (within threshold) Binance reading; (ii) starting from a
state that has never seen a nonzero Binance reading, a run whose
Binance fetches never exceed the threshold never emits the Binance
sustained-zero trigger; (iii) readings 12 then 0 then 0 trigger on the
second poll. -/
theorem claim9_watcher :
    (∀ (cg : Bool) (s : WatcherState) (fb fk : Option ℚ),
      (watcher_step cg s fb fk).1.bin.zero_cnt = s.bin.zero_cnt + 1 →
      cg = false ∧ s.bin.seen_nonzero = true ∧
      (∃ qb, fb = some qb ∧ |qb| ≤ ZERO_ABS_THRESHOLD) ∧ (∃ qk, fk = some qk)) ∧
    (∀ (s : WatcherState) (polls : List (Bool × Option ℚ × Option ℚ)),
      s.bin.seen_nonzero = false → s.bin.zero_cnt = 0 →
      (∀ p ∈ polls, ∀ q : ℚ, p.2.1 = some q → |q| ≤ ZERO_ABS_THRESHOLD) →
      WatchEvent.triggerBin ∉ (watcher_run s polls).2) ∧
    (watcher_run (watcher_init (some 12) (some 5))
      [(false, some 0, some 5), (false, some 0, some 5)]).2 =
      [WatchEvent.quiet, WatchEvent.triggerBin] := by
  refine ⟨?_, ?_, ?_⟩
  · intro cg s fb fk h
    cases cg with
    | true => simp [watcher_step] at h
    | false =>
      cases fb with
      | none => simp [watcher_step] at h
      | some qb =>
        cases fk with
        | none => simp [watcher_step] at h
        | some qk =>
          simp only [watcher_step, Bool.false_eq_true, if_false] at h
          have hleg : (leg_update s.bin qb).zero_cnt = s.bin.zero_cnt + 1 := by
            split_ifs at h <;> simpa using h
          unfold leg_update at hleg
          split_ifs at hleg with ha hb
          · exact ⟨rfl, hb, ⟨qb, rfl, not_lt.mp ha⟩, ⟨qk, rfl⟩⟩
          · simp at hleg
  · intro s polls
    induction polls generalizing s with
    | nil => intro _ _ _; simp [watcher_run]
    | cons p ps ih =>
      intro hseen hcnt hall
      obtain ⟨cg, fb, fk⟩ := p
      have hbin : ∀ q : ℚ, fb = some q → |q| ≤ ZERO_ABS_THRESHOLD := by
        intro q hq
        exact hall (cg, fb, fk) (List.mem_cons_self _ _) q hq
      have hrest : ∀ p ∈ ps, ∀ q : ℚ, p.2.1 = some q → |q| ≤ ZERO_ABS_THRESHOLD := by
        intro p hp q hq
        exact hall p (List.mem_cons_of_mem _ hp) q hq
      cases cg with
      | true =>
        simp only [watcher_run, watcher_step, if_true, List.mem_cons]
        intro hmem
        rcases hmem with hev | hmem
        · exact absurd hev.symm (by simp)
        · exact ih ⟨⟨s.bin.seen_nonzero, 0⟩, ⟨s.kc.seen_nonzero, 0⟩⟩
            (by simpa using hseen) rfl hrest hmem
      | false =>
        cases fb with
        | none =>
          simp only [watcher_run, watcher_step, Bool.false_eq_true, if_false,
            List.mem_cons]
          intro hmem
          rcases hmem with hev | hmem
          · exact absurd hev.symm (by simp)
          · exact ih s hseen hcnt hrest hmem
        | some qb =>
          cases fk with
          | none =>
            simp only [watcher_run, watcher_step, Bool.false_eq_true, if_false,
              List.mem_cons]
            intro hmem
            rcases hmem with hev | hmem
            · exact absurd hev.symm (by simp)
            · exact ih s hseen hcnt hrest hmem
          | some qk =>
            have hq : |qb| ≤ ZERO_ABS_THRESHOLD := hbin qb rfl
            have hupd : leg_update s.bin qb = s.bin := by
              unfold leg_update
              rw [if_neg (not_lt.mpr hq), if_neg (by simp [hseen])]
            simp only [watcher_run, watcher_step, Bool.false_eq_true, if_false,
              hupd, List.mem_cons]
            have hnt : ¬ WATCHER_DETECT_CONFIRM ≤ s.bin.zero_cnt := by
              rw [hcnt]; decide
            rw [if_neg hnt]
            intro hmem
            rcases hmem with hev | hmem
            · revert hev
              split_ifs <;> simp
            · refine ih ⟨s.bin, leg_update s.kc qk⟩ hseen hcnt hrest ?_
              revert hmem
              split_ifs <;> exact fun hmem => hmem
  · norm_num [watcher_run, watcher_init, watcher_step, leg_update,
      ZERO_ABS_THRESHOLD, WATCHER_DETECT_CONFIRM]

/-- C9 witness: part (ii) of the theorem applied to a single isolated
zero reading before any nonzero reading — no trigger. -/
theorem claim9_witness :
    WatchEvent.triggerBin ∉
      (watcher_run ⟨⟨false, 0⟩, ⟨false, 0⟩⟩ [(false, some 0, some 0)]).2 :=
  claim9_watcher.2.1 ⟨⟨false, 0⟩, ⟨false, 0⟩⟩ [(false, some 0, some 0)] rfl rfl
    (by
      intro p hp q hq
      simp only [List.mem_singleton] at hp
      subst hp
      simp only at hq
      injection hq with hv
      rw [← hv]
      norm_num [ZERO_ABS_THRESHOLD])

/-! Claim C10.  `has_open_positions` returns True only when an
exception escapes its OUTER body (bot.py 377-378).  The per-symbol
fetch calls are individually wrapped (lines 335-341, 354-364) and a
raise there is treated as `pos = None`, i.e. as no position on that
symbol — so a run in which every venue fetch raises returns False, and
the scanner then happily accumulates entry confirmation. -/

/-- C10 counterexample: with one traded symbol whose both fetch attempts
raise, `has_open_positions` returns False (not True), and a scanner poll
using exactly that result increments the entry counter. -/
theorem claim10_counterexample :
    has_open_positions false [⟨FetchRes.fail, FetchRes.fail⟩] [] = false ∧
    scanner_eval
      ⟨false, has_open_positions false [⟨FetchRes.fail, FetchRes.fail⟩] [], false⟩
      (fun _ => none) 0 true 0 (some ⟨100, 100⟩) (some ⟨103, 104⟩) = (1, none) := by
  constructor
  · rfl
  · norm_num [scanner_eval, entry_guard, ENTRY_SPREAD, has_open_positions,
      sym_reports_open, fetch_chain]

/-- C10 amended: only an exception escaping the outer body makes
`has_open_positions` report True; a symbol whose fetch attempts both
raise reports no open position, and a scan in which every fetch raises
returns False. -/
theorem claim10_fail_closed :
    (∀ binFetches kcFetches : List SymFetch,
      has_open_positions true binFetches kcFetches = true) ∧
    sym_reports_open ⟨FetchRes.fail, FetchRes.fail⟩ = false ∧
    (∀ binFetches kcFetches : List SymFetch,
      (∀ f ∈ binFetches, f.specific = FetchRes.fail ∧ f.general = FetchRes.fail) →
      (∀ f ∈ kcFetches, f.specific = FetchRes.fail ∧ f.general = FetchRes.fail) →
      has_open_positions false binFetches kcFetches = false) := by
  refine ⟨fun _ _ => rfl, rfl, ?_⟩
  intro binFetches kcFetches hb hk
  simp only [has_open_positions, Bool.false_eq_true, if_false, Bool.or_eq_false_iff,
    List.any_eq_false]
  constructor
  · intro f hf
    obtain ⟨h1, h2⟩ := hb f hf
    obtain ⟨fs, fg⟩ := f
    simp only at h1 h2
    subst h1; subst h2
    decide
  · intro f hf
    obtain ⟨h1, h2⟩ := hk f hf
    obtain ⟨fs, fg⟩ := f
    simp only at h1 h2
    subst h1; subst h2
    decide

/-- C10 witness: the amended theorem applied to a concrete scan of two
traded symbols, both of whose fetches raise. -/
theorem claim10_witness :
    has_open_positions false
      [⟨FetchRes.fail, FetchRes.fail⟩, ⟨FetchRes.fail, FetchRes.fail⟩]
      [⟨FetchRes.fail, FetchRes.fail⟩] = false :=
  claim10_fail_closed.2.2
    [⟨FetchRes.fail, FetchRes.fail⟩, ⟨FetchRes.fail, FetchRes.fail⟩]
    [⟨FetchRes.fail, FetchRes.fail⟩]
    (by
      intro f hf
      simp only [List.mem_cons, List.not_mem_nil, or_false] at hf
      rcases hf with h | h <;> (subst h; exact ⟨rfl, rfl⟩))
    (by
      intro f hf
      simp only [List.mem_cons, List.not_mem_nil, or_false] at hf
      subst hf; exact ⟨rfl, rfl⟩)

end Bot
